import Mathlib

/-!
Verification of the PPG biofeedback challenge engine
(`ppg_flight_simulator/quest_01/game_logic.py` and `mandala/ppg_processor.py`).

The Python code is shallowly embedded: floats become rationals (`ℚ`), the
mutable `GameManager` object becomes a record threaded through a step
function, and `None`-able attributes become `Option`.
-/

set_option autoImplicit false

namespace PPGGame

/-- Game modes of `GameManager` (`MODE_FIRE`, `MODE_WAVE`). -/
inductive GameMode where
  | fire
  | wave
deriving DecidableEq, Repr

/-- Game states of `GameManager` (`STATE_IDLE`, `STATE_CALIBRATING`,
`STATE_CHALLENGE`, `STATE_COMPLETE`). -/
inductive GState where
  | idle
  | calibrating
  | challenge
  | complete
deriving DecidableEq, Repr

/-- `self.calibration_start_time = 3.0` -/
def calibration_start_time : ℚ := 3

/-- `self.calibration_end_time = 10.0` -/
def calibration_end_time : ℚ := 10

/-- `self.challenge_start_time = 10.0` -/
def challenge_start_time : ℚ := 10

/-- `self.ramp_delta = 50.0` -/
def ramp_delta : ℚ := 50

/-- `self.fire_max_duration = 40.0` -/
def fire_max_duration : ℚ := 40

/-- `self.wave_max_duration = 70.0` -/
def wave_max_duration : ℚ := 70

/-- `self.wave_transition_time = 40.0` -/
def wave_transition_time : ℚ := 40

/-- The mutable attributes of the Python `GameManager` object.  The numeric
configuration attributes above are never reassigned anywhere in the source,
so they are embedded as the constants above rather than as fields. -/
structure GameManager where
  game_mode : GameMode
  max_duration : ℚ
  state : GState
  start_time : Option ℚ
  current_time : ℚ
  baseline_value : Option ℚ
  calibration_values : List ℚ
  current_value : Option ℚ
  score : ℕ
  time_in_target : ℚ
  time_below_target : ℚ
  max_consecutive_target : ℚ
  current_consecutive_target : ℚ
deriving DecidableEq, Repr

/-- `GameManager.__init__` (fire mode defaults). -/
def GameManager.init : GameManager :=
  { game_mode := .fire
    max_duration := fire_max_duration
    state := .idle
    start_time := none
    current_time := 0
    baseline_value := none
    calibration_values := []
    current_value := none
    score := 0
    time_in_target := 0
    time_below_target := 0
    max_consecutive_target := 0
    current_consecutive_target := 0 }

/-- `GameManager.set_game_mode`. -/
def set_game_mode (g : GameManager) (mode : GameMode) : GameManager :=
  match mode with
  | .fire => { g with game_mode := .fire, max_duration := fire_max_duration }
  | .wave => { g with game_mode := .wave, max_duration := wave_max_duration }

/-- A `GameManager` freshly constructed for the given mode. -/
def initFor (m : GameMode) : GameManager :=
  set_game_mode GameManager.init m

/-- `GameManager.start_game`. -/
def start_game (g : GameManager) : GameManager :=
  { g with state := .calibrating
           start_time := none
           current_time := 0
           baseline_value := none
           calibration_values := []
           current_value := none
           score := 0
           time_in_target := 0
           time_below_target := 0
           max_consecutive_target := 0
           current_consecutive_target := 0 }

/-- `GameManager._calculate_target`, with the baseline passed explicitly
(in the source it reads `self.baseline_value`, which is only ever consulted
here after calibration has set it). -/
def calculate_target (mode : GameMode) (baseline : ℚ) (time_value : ℚ) : ℚ :=
  if time_value < challenge_start_time then baseline
  else
    match mode with
    | .fire =>
        let challenge_duration := fire_max_duration - challenge_start_time
        let position := min 1 ((time_value - challenge_start_time) / challenge_duration)
        baseline + position * ramp_delta
    | .wave =>
        if time_value < wave_transition_time then
          let phase_duration := wave_transition_time - challenge_start_time
          let position := min 1 ((time_value - challenge_start_time) / phase_duration)
          baseline + position * ramp_delta
        else
          let phase_duration := wave_max_duration - wave_transition_time
          let position := min 1 ((time_value - wave_transition_time) / phase_duration)
          let peak_value := baseline + ramp_delta
          peak_value - position * ramp_delta

/-- `GameManager._complete_calibration`. -/
def complete_calibration (g : GameManager) : GameManager :=
  if g.calibration_values ≠ [] then
    let b := g.calibration_values.sum / (g.calibration_values.length : ℚ)
    { g with baseline_value := some b }
  else
    { g with baseline_value := some 500 }

/-- `GameManager.process_data_point`.  The Python method also returns a state
dictionary; only the state mutation matters here, so the new record is the
result.  In the challenge branch the source reads `self.baseline_value`
(always a number there, since `_complete_calibration` ran at the transition);
the `Option.getD 0` is inert on every reachable state. -/
def process_data_point (g : GameManager) (time_value signal_value : ℚ) : GameManager :=
  let st := g.start_time.getD time_value
  let g1 : GameManager :=
    { g with start_time := some st
             current_time := time_value - st
             current_value := some signal_value }
  match g1.state with
  | .idle => g1
  | .calibrating =>
      let g2 : GameManager :=
        if calibration_start_time ≤ g1.current_time ∧
            g1.current_time ≤ calibration_end_time then
          { g1 with calibration_values := g1.calibration_values ++ [signal_value] }
        else g1
      if calibration_end_time ≤ g2.current_time then
        { (complete_calibration g2) with state := .challenge }
      else g2
  | .challenge =>
      let target_value := calculate_target g1.game_mode (g1.baseline_value.getD 0) g1.current_time
      let is_above_target : Bool := target_value ≤ signal_value
      let time_delta : ℚ := 1/10
      let g2 : GameManager :=
        if is_above_target then
          { g1 with time_in_target := g1.time_in_target + time_delta
                    current_consecutive_target := g1.current_consecutive_target + time_delta
                    score := g1.score + 1 }
        else
          { g1 with time_below_target := g1.time_below_target + time_delta
                    max_consecutive_target :=
                      max g1.max_consecutive_target g1.current_consecutive_target
                    current_consecutive_target := 0 }
      if g2.max_duration ≤ g2.current_time then
        { g2 with state := .complete
                  max_consecutive_target :=
                    max g2.max_consecutive_target g2.current_consecutive_target }
      else g2
  | .complete => g1

/-- The final-results record of `GameManager.get_final_results`. -/
structure FinalResults where
  score : ℕ
  time_in_target : ℚ
  time_below_target : ℚ
  percent_in_target : ℚ
  max_consecutive_target : ℚ
  baseline : Option ℚ
deriving DecidableEq, Repr

/-- `GameManager.get_final_results`. -/
def get_final_results (g : GameManager) : Option FinalResults :=
  if g.state ≠ .complete then none
  else
    let total_challenge_time := g.max_duration - challenge_start_time
    let percent_in_target :=
      if 0 < total_challenge_time then
        g.time_in_target / total_challenge_time * 100
      else 0
    some { score := g.score
           time_in_target := g.time_in_target
           time_below_target := g.time_below_target
           percent_in_target := percent_in_target
           max_consecutive_target := g.max_consecutive_target
           baseline := g.baseline_value }

/-- Processing a list of `(time, value)` samples in order. -/
def process_list (g : GameManager) (samples : List (ℚ × ℚ)) : GameManager :=
  samples.foldl (fun a s => process_data_point a s.1 s.2) g

/-- A nominal-rate run: the machine is started and then fed one sample every
0.1 s, tick `k` arriving at absolute time `t0 + k/10` with value `v k`. -/
def runTicks (m : GameMode) (t0 : ℚ) (v : ℕ → ℚ) : ℕ → GameManager
  | 0 => start_game (initFor m)
  | n + 1 => process_data_point (runTicks m t0 v n) (t0 + (n : ℚ) / 10) (v n)

/-- The tick index whose elapsed time equals the mode's `max_duration`
(`10 * max_duration` at the 10 Hz rate). -/
def durTicks : GameMode → ℕ
  | .fire => 400
  | .wave => 700

/-- The streak bookkeeping of one challenge tick, on the pair
`(current_consecutive_target, max_consecutive_target)`, driven by whether the
sample was at or above target (lines 202-211 of `game_logic.py`). -/
def streakStep (s : ℚ × ℚ) (b : Bool) : ℚ × ℚ :=
  if b then (s.1 + 1/10, s.2) else (0, max s.2 s.1)

/-- The streak pair after a whole list of pass/fail ticks. -/
def streakRun (bs : List Bool) : ℚ × ℚ := bs.foldl streakStep (0, 0)

/-- The final flush of the streak maximum performed when the challenge
completes (lines 218-219 of `game_logic.py`). -/
def streakFlush (s : ℚ × ℚ) : ℚ := max s.2 s.1

/-- Length of the initial run of `true`s. -/
def firstRun (bs : List Bool) : ℕ := (bs.takeWhile id).length

/-- The true maximum run length of consecutive `true`s, specified
independently of the streak automaton: the largest initial `true`-run over
all suffixes. -/
def maxRunLen (bs : List Bool) : ℕ := (bs.tails.map firstRun).foldr max 0

/-- The baseline the machine holds when the challenge phase of a
nominal-rate run begins (right after tick 100 triggers the transition). -/
def runBaseline (m : GameMode) (t0 : ℚ) (v : ℕ → ℚ) : ℚ :=
  (runTicks m t0 v 101).baseline_value.getD 0

/-- Whether challenge tick `101 + j` of a nominal-rate run passes the
scoring comparison `signal_value >= target_value`. -/
def passBit (m : GameMode) (t0 : ℚ) (v : ℕ → ℚ) (j : ℕ) : Bool :=
  decide (calculate_target m (runBaseline m t0 v) (((101 + j : ℕ) : ℚ) / 10) ≤ v (101 + j))

/-- The pass/fail bits of the first `j` challenge ticks of a nominal-rate
run. -/
def bitsList (m : GameMode) (t0 : ℚ) (v : ℕ → ℚ) (j : ℕ) : List Bool :=
  (List.range j).map (passBit m t0 v)

end PPGGame

namespace PPGProc

/-- The mean of a list of rationals (`np.mean`). -/
def mean (l : List ℚ) : ℚ := l.sum / (l.length : ℚ)

/-- The population variance of a list of rationals (`np.std` squared;
`np.std` itself is its square root, which is kept squared here so that the
development stays inside `ℚ`). -/
def variance (l : List ℚ) : ℚ := mean (l.map (fun x => (x - mean l) ^ 2))

/-- Append to a `deque(maxlen := m)`: push right, evict from the left when the
length would exceed the bound. -/
def dequePush (m : ℕ) (l : List ℚ) (x : ℚ) : List ℚ :=
  let l2 := l ++ [x]
  if m < l2.length then l2.drop (l2.length - m) else l2

/-- The mutable attributes of `PPGProcessor` that the signal pipeline uses
(`data_buffer` is a `deque(maxlen = 10*sampling_rate)` of raw samples,
`hr_buffer` a `deque(maxlen = 30)` of recent heart-rate estimates). -/
structure PPGProcessor where
  sampling_rate : ℕ
  data_buffer : List ℚ
  hr_buffer : List ℚ
deriving DecidableEq, Repr

/-- Whether `last_3s[i]` is a counted peak in
`PPGProcessor.calculate_heart_rate`: strictly above both neighbours and above
the threshold `mean + 0.3*std`.  Since `std = sqrt variance` is irrational,
the comparison `μ + 0.3*std < x` is embedded by the equivalent
`μ < x ∧ (3/10)^2 * variance < (x - μ)^2`. -/
def isPeak (l : List ℚ) (μ v : ℚ) (i : ℕ) : Bool :=
  decide (0 < i) && decide (i + 1 < l.length) &&
  decide (μ < l.getD i 0) && decide ((3/10) ^ 2 * v < (l.getD i 0 - μ) ^ 2) &&
  decide (l.getD (i - 1) 0 < l.getD i 0) && decide (l.getD (i + 1) 0 < l.getD i 0)

/-- The peak count of the window in `PPGProcessor.calculate_heart_rate`
(the loop `for i in range(1, len(last_3s) - 1)`). -/
def countPeaks (l : List ℚ) : ℕ :=
  ((List.range l.length).filter (isPeak l (mean l) (variance l))).length

/-- `PPGProcessor.calculate_heart_rate`.  Returns the updated processor
(the method mutates `hr_buffer`) together with the returned estimate. -/
def calculate_heart_rate (p : PPGProcessor) : PPGProcessor × ℚ :=
  if p.data_buffer.length < p.sampling_rate * 3 then (p, 70)
  else
    let last3s := p.data_buffer.drop (p.data_buffer.length - p.sampling_rate * 3)
    let hr : ℚ := (countPeaks last3s : ℚ) * 20
    let hb := dequePush 30 p.hr_buffer hr
    ({ p with hr_buffer := hb }, mean hb)

/-- The least-squares slope of `np.polyfit(x, ys, 1)` for `x = 0, 1, ..., n-1`:
`(n·Σxy − Σx·Σy) / (n·Σx² − (Σx)²)`. -/
def lsqSlope (ys : List ℚ) : ℚ :=
  let n : ℚ := (ys.length : ℚ)
  let xs : List ℚ := (List.range ys.length).map (fun i => (i : ℚ))
  let sx := xs.sum
  let sy := ys.sum
  let sxy := ((xs.zip ys).map (fun q => q.1 * q.2)).sum
  let sxx := (xs.map (fun x => x * x)).sum
  (n * sxy - sx * sy) / (n * sxx - sx * sx)

/-- The matching least-squares intercept of `np.polyfit(x, ys, 1)`:
`(Σy·Σx² − Σx·Σxy) / (n·Σx² − (Σx)²)`. -/
def lsqIntercept (ys : List ℚ) : ℚ :=
  let n : ℚ := (ys.length : ℚ)
  let xs : List ℚ := (List.range ys.length).map (fun i => (i : ℚ))
  let sx := xs.sum
  let sy := ys.sum
  let sxy := ((xs.zip ys).map (fun q => q.1 * q.2)).sum
  let sxx := (xs.map (fun x => x * x)).sum
  (sy * sxx - sx * sxy) / (n * sxx - sx * sx)

/-- The Python slice `l[-w:]`: the last `w` elements — except that for
`w = 0` the slice `l[-0:]` is `l[0:]`, the whole list. -/
def lastWindow (w : ℕ) (l : List ℚ) : List ℚ :=
  if w = 0 then l else l.drop (l.length - w)

/-- `PPGProcessor.get_hr_change_rate` (`recent_hrs = hr_buffer[-window_size:]`). -/
def get_hr_change_rate (p : PPGProcessor) (window_size : ℕ) : ℚ :=
  if p.hr_buffer.length < window_size then 0
  else
    let recent_hrs := lastWindow window_size p.hr_buffer
    if recent_hrs.length < 2 then 0
    else lsqSlope recent_hrs

end PPGProc

namespace PPGGame

/-- C7: for every elapsed time strictly before `challenge_start_time`, every
baseline and every game mode, `_calculate_target` returns exactly the
baseline. -/
theorem target_before_challenge_eq_baseline (m : GameMode) (b t : ℚ)
    (h : t < challenge_start_time) : calculate_target m b t = b := by
  simp [calculate_target, h]

theorem target_before_challenge_eq_baseline_witness :
    (5 : ℚ) < challenge_start_time ∧ calculate_target .wave 480 5 = 480 :=
  ⟨by norm_num [challenge_start_time],
   target_before_challenge_eq_baseline .wave 480 5
     (by norm_num [challenge_start_time])⟩

/-- C3: the single-ramp (fire) target reaches `baseline + ramp_delta` at the
end of the challenge window, and is monotonically non-decreasing on
`[challenge_start_time, fire_max_duration]`. -/
theorem fire_target_peak_and_monotone (b t₁ t₂ : ℚ)
    (h1 : challenge_start_time ≤ t₁) (h2 : t₁ ≤ t₂) (h3 : t₂ ≤ fire_max_duration) :
    calculate_target .fire b fire_max_duration = b + ramp_delta ∧
    calculate_target .fire b t₁ ≤ calculate_target .fire b t₂ := by
  simp only [calculate_target, challenge_start_time, fire_max_duration, ramp_delta] at *
  constructor
  · norm_num
  · rw [if_neg (by linarith), if_neg (by linarith)]
    have hmin : min 1 ((t₁ - 10) / 30) ≤ min 1 ((t₂ - 10) / 30) :=
      min_le_min le_rfl (by apply div_le_div_of_nonneg_right (by linarith) (by norm_num))
    nlinarith [hmin]

theorem fire_target_peak_and_monotone_witness :
    challenge_start_time ≤ (20 : ℚ) ∧ (20 : ℚ) ≤ 30 ∧ (30 : ℚ) ≤ fire_max_duration ∧
    (calculate_target .fire 500 fire_max_duration = 500 + ramp_delta ∧
      calculate_target .fire 500 20 ≤ calculate_target .fire 500 30) :=
  ⟨by norm_num [challenge_start_time], by norm_num, by norm_num [fire_max_duration],
   fire_target_peak_and_monotone 500 20 30 (by norm_num [challenge_start_time])
     (by norm_num) (by norm_num [fire_max_duration])⟩

/-- C4: the two-phase (wave) target is continuous at the transition time: on
the whole ramp-up phase it agrees with an affine function whose value at the
transition time is `baseline + ramp_delta` (so the left-phase limit there is
`baseline + ramp_delta`), the right-phase value at the transition time is
also `baseline + ramp_delta`, and the target is monotonically non-increasing
on the second phase `[wave_transition_time, wave_max_duration]`. -/
theorem wave_target_continuous_and_rampdown_monotone (b t t₁ t₂ : ℚ)
    (ht0 : challenge_start_time ≤ t) (ht1 : t ≤ wave_transition_time)
    (h1 : wave_transition_time ≤ t₁) (h2 : t₁ ≤ t₂) (h3 : t₂ ≤ wave_max_duration) :
    calculate_target .wave b t =
      (b + ramp_delta) - (5/3) * (wave_transition_time - t) ∧
    calculate_target .wave b wave_transition_time = b + ramp_delta ∧
    calculate_target .wave b t₂ ≤ calculate_target .wave b t₁ := by
  simp only [calculate_target, challenge_start_time, wave_transition_time,
    wave_max_duration, ramp_delta] at *
  refine ⟨?_, ?_, ?_⟩
  · rw [if_neg (by linarith)]
    rcases lt_or_ge t 40 with hc | hc
    · rw [if_pos hc]
      have hmin : min 1 ((t - 10) / (40 - 10)) = (t - 10) / (40 - 10) :=
        min_eq_right (by rw [div_le_one (by norm_num)]; linarith)
      rw [hmin]; ring
    · have ht40 : t = 40 := le_antisymm ht1 hc
      subst ht40
      norm_num
  · norm_num
  · rw [if_neg (by linarith), if_neg (by linarith), if_neg (by linarith),
      if_neg (by linarith)]
    have hmin : min 1 ((t₁ - 40) / 30) ≤ min 1 ((t₂ - 40) / 30) :=
      min_le_min le_rfl (by apply div_le_div_of_nonneg_right (by linarith) (by norm_num))
    nlinarith [hmin]

theorem wave_target_continuous_and_rampdown_monotone_witness :
    challenge_start_time ≤ (39 : ℚ) ∧ (39 : ℚ) ≤ wave_transition_time ∧
    wave_transition_time ≤ (50 : ℚ) ∧ (50 : ℚ) ≤ 60 ∧ (60 : ℚ) ≤ wave_max_duration ∧
    (calculate_target .wave 500 39 =
        (500 + ramp_delta) - (5/3) * (wave_transition_time - 39) ∧
      calculate_target .wave 500 wave_transition_time = 500 + ramp_delta ∧
      calculate_target .wave 500 60 ≤ calculate_target .wave 500 50) :=
  ⟨by norm_num [challenge_start_time], by norm_num [wave_transition_time],
   by norm_num [wave_transition_time], by norm_num, by norm_num [wave_max_duration],
   wave_target_continuous_and_rampdown_monotone 500 39 50 60
     (by norm_num [challenge_start_time]) (by norm_num [wave_transition_time])
     (by norm_num [wave_transition_time]) (by norm_num) (by norm_num [wave_max_duration])⟩

end PPGGame

namespace PPGProc

/-- C6: on a data buffer with fewer than `3 * sampling_rate` samples,
`calculate_heart_rate` returns the fixed fallback 70 and leaves the
processor (in particular its rolling `hr_buffer` history) unchanged. -/
theorem heart_rate_short_buffer_fallback (p : PPGProcessor)
    (h : p.data_buffer.length < p.sampling_rate * 3) :
    calculate_heart_rate p = (p, 70) := by
  simp [calculate_heart_rate, h]

theorem heart_rate_short_buffer_fallback_witness :
    ((⟨100, [500, 501], [80]⟩ : PPGProcessor)).data_buffer.length <
      ((⟨100, [500, 501], [80]⟩ : PPGProcessor)).sampling_rate * 3 ∧
    calculate_heart_rate ⟨100, [500, 501], [80]⟩ = (⟨100, [500, 501], [80]⟩, 70) :=
  ⟨by norm_num,
   heart_rate_short_buffer_fallback ⟨100, [500, 501], [80]⟩ (by norm_num)⟩

end PPGProc

namespace PPGProc

/-- `Σ x` for the regressor values `x = 0, 1, ..., n-1`. -/
def sumX (n : ℕ) : ℚ := ((List.range n).map (fun i => (i : ℚ))).sum

/-- `Σ x²` for the regressor values `x = 0, 1, ..., n-1`. -/
def sumXX (n : ℕ) : ℚ := (((List.range n).map (fun i => (i : ℚ))).map (fun x => x * x)).sum

/-- `Σ x·y` pairing `x = 0, 1, ..., n-1` with the list `ys`. -/
def sumXY (ys : List ℚ) : ℚ :=
  ((((List.range ys.length).map (fun i => (i : ℚ))).zip ys).map (fun q => q.1 * q.2)).sum

theorem lsqSlope_eq (ys : List ℚ) :
    lsqSlope ys =
      ((ys.length : ℚ) * sumXY ys - sumX ys.length * ys.sum) /
        ((ys.length : ℚ) * sumXX ys.length - sumX ys.length * sumX ys.length) := rfl

theorem lsqIntercept_eq (ys : List ℚ) :
    lsqIntercept ys =
      (ys.sum * sumXX ys.length - sumX ys.length * sumXY ys) /
        ((ys.length : ℚ) * sumXX ys.length - sumX ys.length * sumX ys.length) := rfl

theorem sumX_eq (n : ℕ) : sumX n = (n : ℚ) * ((n : ℚ) - 1) / 2 := by
  induction n with
  | zero => simp [sumX]
  | succ k ih =>
      have : sumX (k + 1) = sumX k + (k : ℚ) := by
        simp [sumX, List.range_succ]
      rw [this, ih]
      push_cast
      ring

theorem sumXX_eq (n : ℕ) :
    sumXX n = (n : ℚ) * ((n : ℚ) - 1) * (2 * (n : ℚ) - 1) / 6 := by
  induction n with
  | zero => simp [sumXX]
  | succ k ih =>
      have : sumXX (k + 1) = sumXX k + (k : ℚ) * (k : ℚ) := by
        simp [sumXX, List.range_succ]
      rw [this, ih]
      push_cast
      ring

theorem lsq_denom_pos (n : ℕ) (h : 2 ≤ n) :
    0 < (n : ℚ) * sumXX n - sumX n * sumX n := by
  rw [sumX_eq, sumXX_eq]
  have hq : (2 : ℚ) ≤ (n : ℚ) := by exact_mod_cast h
  nlinarith [hq, sq_nonneg ((n : ℚ) - 2), sq_nonneg ((n : ℚ) + 1)]

/-- The slope/intercept pair returned by the closed `np.polyfit` formulas
satisfies both least-squares normal equations, so it is the least-squares
linear fit. -/
theorem lsq_normal_equations (ys : List ℚ) (h : 2 ≤ ys.length) :
    lsqSlope ys * sumXX ys.length + lsqIntercept ys * sumX ys.length = sumXY ys ∧
    lsqSlope ys * sumX ys.length + lsqIntercept ys * (ys.length : ℚ) = ys.sum := by
  have hD := lsq_denom_pos ys.length h
  have hD2 : ((ys.length : ℚ) * sumXX ys.length - sumX ys.length * sumX ys.length) ≠ 0 :=
    ne_of_gt hD
  rw [lsqSlope_eq, lsqIntercept_eq]
  constructor <;> field_simp <;> ring

/-- The example processor for claim C8: three history points `1, 2, 3`. -/
def hrProcExample : PPGProcessor := ⟨100, [], [1, 2, 3]⟩

/-- C8 counterexample: with three history points available (at least two) and
the default `window_size = 10`, `get_hr_change_rate` returns 0 even though
the least-squares slope over the available values is 1; so the code does not
return the regression slope whenever at least 2 points exist, and "returns 0
iff fewer than 2 points" is false. -/
theorem hr_change_rate_iff_counterexample :
    2 ≤ hrProcExample.hr_buffer.length ∧
    lsqSlope hrProcExample.hr_buffer = 1 ∧
    get_hr_change_rate hrProcExample 10 = 0 := by
  refine ⟨by decide, ?_, ?_⟩
  · with_unfolding_all decide
  · with_unfolding_all decide

/-- C8 amended: `get_hr_change_rate` returns 0 whenever the rolling history
holds fewer than `window_size` values (even when 2 or more points are
available); otherwise it selects `hr_buffer[-window_size:]` — the last
`window_size` history values, the whole history when `window_size = 0` — and
returns 0 when the selection holds fewer than 2 values, and otherwise the
least-squares linear-regression slope fitted over the selected values
(least-squares in the sense that, with the matching intercept, it satisfies
both normal equations). -/
theorem hr_change_rate_spec (p : PPGProcessor) (w : ℕ) :
    (p.hr_buffer.length < w → get_hr_change_rate p w = 0) ∧
    (w ≤ p.hr_buffer.length → (lastWindow w p.hr_buffer).length < 2 →
      get_hr_change_rate p w = 0) ∧
    (w ≤ p.hr_buffer.length → 2 ≤ (lastWindow w p.hr_buffer).length →
      get_hr_change_rate p w = lsqSlope (lastWindow w p.hr_buffer) ∧
      lsqSlope (lastWindow w p.hr_buffer) * sumXX (lastWindow w p.hr_buffer).length +
        lsqIntercept (lastWindow w p.hr_buffer) * sumX (lastWindow w p.hr_buffer).length =
        sumXY (lastWindow w p.hr_buffer) ∧
      lsqSlope (lastWindow w p.hr_buffer) * sumX (lastWindow w p.hr_buffer).length +
        lsqIntercept (lastWindow w p.hr_buffer) * ((lastWindow w p.hr_buffer).length : ℚ) =
        (lastWindow w p.hr_buffer).sum) := by
  refine ⟨?_, ?_, ?_⟩
  · intro hlt
    simp [get_hr_change_rate, hlt]
  · intro hge hlen
    simp only [get_hr_change_rate, if_neg (not_lt.mpr hge)]
    rw [if_pos hlen]
  · intro hge hlen
    have hget : get_hr_change_rate p w = lsqSlope (lastWindow w p.hr_buffer) := by
      simp only [get_hr_change_rate, if_neg (not_lt.mpr hge)]
      rw [if_neg (not_lt.mpr hlen)]
    have hne := lsq_normal_equations (lastWindow w p.hr_buffer) hlen
    exact ⟨hget, hne.1, hne.2⟩

theorem hr_change_rate_spec_witness :
    (3 : ℕ) ≤ hrProcExample.hr_buffer.length ∧
    2 ≤ (lastWindow 3 hrProcExample.hr_buffer).length ∧
    (get_hr_change_rate hrProcExample 3 =
        lsqSlope (lastWindow 3 hrProcExample.hr_buffer) ∧
      lsqSlope (lastWindow 3 hrProcExample.hr_buffer) *
          sumXX (lastWindow 3 hrProcExample.hr_buffer).length +
        lsqIntercept (lastWindow 3 hrProcExample.hr_buffer) *
          sumX (lastWindow 3 hrProcExample.hr_buffer).length =
        sumXY (lastWindow 3 hrProcExample.hr_buffer) ∧
      lsqSlope (lastWindow 3 hrProcExample.hr_buffer) *
          sumX (lastWindow 3 hrProcExample.hr_buffer).length +
        lsqIntercept (lastWindow 3 hrProcExample.hr_buffer) *
          ((lastWindow 3 hrProcExample.hr_buffer).length : ℚ) =
        (lastWindow 3 hrProcExample.hr_buffer).sum) :=
  ⟨by decide, by decide,
   (hr_change_rate_spec hrProcExample 3).2.2 (by decide) (by decide)⟩

end PPGProc

namespace PPGGame

/-- A concrete wave-mode state inside the challenge phase, as produced after
a calibration that measured baseline 500 (used for claim C1). -/
def waveDownState : GameManager :=
  { game_mode := .wave
    max_duration := wave_max_duration
    state := .challenge
    start_time := some 0
    current_time := 45
    baseline_value := some 500
    calibration_values := [500]
    current_value := some 500
    score := 0
    time_in_target := 0
    time_below_target := 0
    max_consecutive_target := 0
    current_consecutive_target := 0 }

/-- C1 counterexample: during the ramp-down phase of the wave variant
(elapsed 50 ≥ `wave_transition_time`), a sample with
`current = 500 ≤ target` is NOT counted as in-target by the code: it
accumulates `time_below_target`, not `time_in_target`, gains no score, and
resets the streak.  So the pass rule in the ramp-down phase is not
`current <= target`. -/
theorem wave_rampdown_pass_rule_counterexample :
    wave_transition_time ≤ (50 : ℚ) ∧
    (500 : ℚ) ≤ calculate_target .wave 500 50 ∧
    (process_data_point waveDownState 50 500).time_in_target = 0 ∧
    (process_data_point waveDownState 50 500).score = 0 ∧
    (process_data_point waveDownState 50 500).current_consecutive_target = 0 ∧
    (process_data_point waveDownState 50 500).time_below_target = 1/10 := by
  refine ⟨by norm_num [wave_transition_time], ?_, ?_, ?_, ?_, ?_⟩ <;>
    with_unfolding_all decide

/-- C1 amended: in every mode and at every elapsed time — including the
ramp-down phase of the wave variant — a challenge-phase sample counts as
in-target (accumulating `time_in_target`, `score` and the consecutive
streak) exactly when `current >= target`; when `current < target` it
accumulates `time_below_target` and resets the streak. -/
theorem challenge_pass_rule (g : GameManager) (t v s : ℚ)
    (hs : g.state = .challenge) (hst : g.start_time = some s) :
    (calculate_target g.game_mode (g.baseline_value.getD 0) (t - s) ≤ v →
      (process_data_point g t v).time_in_target = g.time_in_target + 1/10 ∧
      (process_data_point g t v).score = g.score + 1 ∧
      (process_data_point g t v).current_consecutive_target =
        g.current_consecutive_target + 1/10 ∧
      (process_data_point g t v).time_below_target = g.time_below_target) ∧
    (v < calculate_target g.game_mode (g.baseline_value.getD 0) (t - s) →
      (process_data_point g t v).time_below_target = g.time_below_target + 1/10 ∧
      (process_data_point g t v).time_in_target = g.time_in_target ∧
      (process_data_point g t v).current_consecutive_target = 0 ∧
      (process_data_point g t v).score = g.score) := by
  constructor
  · intro hcv
    simp only [process_data_point, hst, Option.getD_some, hs]
    simp only [hcv, decide_True]
    by_cases hdone : g.max_duration ≤ t - s <;> simp [hdone]
  · intro hcv
    have hcv2 : ¬ calculate_target g.game_mode (g.baseline_value.getD 0) (t - s) ≤ v :=
      not_le.mpr hcv
    simp only [process_data_point, hst, Option.getD_some, hs]
    simp only [eq_false hcv2, decide_False]
    by_cases hdone : g.max_duration ≤ t - s <;> simp [hdone]

theorem challenge_pass_rule_witness :
    waveDownState.state = .challenge ∧ waveDownState.start_time = some 0 ∧
    ((500 : ℚ) <
      calculate_target waveDownState.game_mode (waveDownState.baseline_value.getD 0)
        (50 - 0)) ∧
    ((process_data_point waveDownState 50 500).time_below_target =
        waveDownState.time_below_target + 1/10 ∧
      (process_data_point waveDownState 50 500).time_in_target =
        waveDownState.time_in_target ∧
      (process_data_point waveDownState 50 500).current_consecutive_target = 0 ∧
      (process_data_point waveDownState 50 500).score = waveDownState.score) :=
  ⟨rfl, rfl, by with_unfolding_all decide,
   (challenge_pass_rule waveDownState 50 500 0 rfl rfl).2 (by with_unfolding_all decide)⟩

/-- C10: in the `complete` (and `idle`) states, `process_data_point` leaves
score, time accumulators, streaks, baseline, calibration data, mode,
duration and the state itself unchanged; only `current_time`,
`current_value` (and `start_time` on the very first call) are updated.
Consequently the final results are stable under further samples; and for
every manager whose state is not `complete` (idle, calibrating or challenge
alike), `get_final_results` is `none`. -/
theorem complete_idle_frame (g : GameManager) (t v : ℚ)
    (h : g.state = .complete ∨ g.state = .idle) :
    (process_data_point g t v).score = g.score ∧
    (process_data_point g t v).time_in_target = g.time_in_target ∧
    (process_data_point g t v).time_below_target = g.time_below_target ∧
    (process_data_point g t v).max_consecutive_target = g.max_consecutive_target ∧
    (process_data_point g t v).current_consecutive_target =
      g.current_consecutive_target ∧
    (process_data_point g t v).baseline_value = g.baseline_value ∧
    (process_data_point g t v).state = g.state ∧
    (process_data_point g t v).game_mode = g.game_mode ∧
    (process_data_point g t v).max_duration = g.max_duration ∧
    (process_data_point g t v).calibration_values = g.calibration_values ∧
    (process_data_point g t v).current_time = t - g.start_time.getD t ∧
    (process_data_point g t v).current_value = some v ∧
    (process_data_point g t v).start_time = some (g.start_time.getD t) ∧
    (∀ g2 : GameManager, g2.state ≠ .complete → get_final_results g2 = none) ∧
    (g.state = .complete →
      get_final_results (process_data_point g t v) = get_final_results g) := by
  have hnone : ∀ g2 : GameManager, g2.state ≠ .complete → get_final_results g2 = none := by
    intro g2 hg2
    simp [get_final_results, hg2]
  rcases h with hs | hs <;>
    refine ⟨?_, ?_, ?_, ?_, ?_, ?_, ?_, ?_, ?_, ?_, ?_, ?_, ?_, hnone, ?_⟩ <;>
      simp [process_data_point, hs, get_final_results]

/-- A concrete finished game (used for claim C10). -/
def processedExample : GameManager :=
  { waveDownState with state := .complete, time_in_target := 20, score := 200 }

theorem complete_idle_frame_witness :
    ((processedExample : GameManager).state = .complete ∨
      (processedExample : GameManager).state = .idle) ∧
    (process_data_point processedExample 99 640).score = processedExample.score :=
  ⟨Or.inl rfl, (complete_idle_frame processedExample 99 640 (Or.inl rfl)).1⟩

end PPGGame

namespace PPGGame

theorem pdp_first_sample (g : GameManager) (t v : ℚ) (hs : g.state = .calibrating)
    (hst : g.start_time = none) :
    process_data_point g t v =
      { g with start_time := some t, current_time := 0, current_value := some v } := by
  have h1 : (calibration_start_time ≤ (0 : ℚ)) = False :=
    eq_false (by norm_num [calibration_start_time])
  have h2 : (calibration_end_time ≤ (0 : ℚ)) = False :=
    eq_false (by norm_num [calibration_end_time])
  simp only [process_data_point, hst, Option.getD_none, hs, sub_self, h1, h2,
    false_and, if_false]

theorem pdp_calibrating_stay (g : GameManager) (t v s : ℚ) (hs : g.state = .calibrating)
    (hst : g.start_time = some s) (hlt : t - s < calibration_end_time) :
    process_data_point g t v =
      { g with start_time := some s
               current_time := t - s
               current_value := some v
               calibration_values := g.calibration_values ++
                 (if calibration_start_time ≤ t - s then [v] else []) } := by
  have hno : (calibration_end_time ≤ t - s) = False := eq_false (not_le.mpr hlt)
  by_cases h3 : calibration_start_time ≤ t - s
  · simp only [process_data_point, hst, Option.getD_some, hs, eq_true h3,
      eq_true (le_of_lt hlt), true_and, and_true, if_true, hno, if_false]
  · simp only [process_data_point, hst, Option.getD_some, hs, eq_false h3,
      false_and, if_false, hno, List.append_nil]

theorem pdp_calibrating_finish (g : GameManager) (t v s : ℚ) (hs : g.state = .calibrating)
    (hst : g.start_time = some s) (hge : calibration_end_time ≤ t - s) :
    process_data_point g t v =
      { g with start_time := some s
               current_time := t - s
               current_value := some v
               state := .challenge
               calibration_values := g.calibration_values ++
                 (if calibration_start_time ≤ t - s ∧ t - s ≤ calibration_end_time
                  then [v] else [])
               baseline_value :=
                 some (if g.calibration_values ++
                     (if calibration_start_time ≤ t - s ∧ t - s ≤ calibration_end_time
                      then [v] else []) = [] then 500
                   else (g.calibration_values ++
                       (if calibration_start_time ≤ t - s ∧ t - s ≤ calibration_end_time
                        then [v] else [])).sum /
                     ((g.calibration_values ++
                       (if calibration_start_time ≤ t - s ∧ t - s ≤ calibration_end_time
                        then [v] else [])).length : ℚ)) } := by
  by_cases h3 : calibration_start_time ≤ t - s
  · by_cases h10 : t - s ≤ calibration_end_time
    · have hne : (g.calibration_values ++ [v] ≠ []) = True := eq_true (by simp)
      have hnee : (g.calibration_values ++ [v] = []) = False := eq_false (by simp)
      simp only [process_data_point, hst, Option.getD_some, hs, eq_true h3,
        eq_true h10, eq_true hge, true_and, and_true, if_true,
        complete_calibration, hne, hnee, if_false]
    · by_cases hcv : g.calibration_values = []
      · have ha : (g.calibration_values ≠ []) = False := eq_false (by simp [hcv])
        have hb : (g.calibration_values = []) = True := eq_true hcv
        simp only [process_data_point, hst, Option.getD_some, hs, eq_false h10,
          and_false, if_false, eq_true hge, if_true, complete_calibration, ha, hb,
          List.append_nil]
      · have ha : (g.calibration_values ≠ []) = True := eq_true hcv
        have hb : (g.calibration_values = []) = False := eq_false hcv
        simp only [process_data_point, hst, Option.getD_some, hs, eq_false h10,
          and_false, if_false, eq_true hge, if_true, complete_calibration, ha, hb,
          List.append_nil]
  · by_cases hcv : g.calibration_values = []
    · have ha : (g.calibration_values ≠ []) = False := eq_false (by simp [hcv])
      have hb : (g.calibration_values = []) = True := eq_true hcv
      simp only [process_data_point, hst, Option.getD_some, hs, eq_false h3,
        false_and, if_false, eq_true hge, if_true, complete_calibration, ha, hb,
        List.append_nil]
    · have ha : (g.calibration_values ≠ []) = True := eq_true hcv
      have hb : (g.calibration_values = []) = False := eq_false hcv
      simp only [process_data_point, hst, Option.getD_some, hs, eq_false h3,
        false_and, if_false, eq_true hge, if_true, complete_calibration, ha, hb,
        List.append_nil]

/-- The in-window predicate used by the calibration collector, relative to
the elapsed clock that starts at `t0`. -/
def inCalibWindow (t0 : ℚ) (x : ℚ × ℚ) : Bool :=
  decide (calibration_start_time ≤ x.1 - t0 ∧ x.1 - t0 ≤ calibration_end_time)

theorem process_list_calibrating (t0 : ℚ) (l : List (ℚ × ℚ)) :
    ∀ g : GameManager, g.state = .calibrating → g.start_time = some t0 →
      (∀ x ∈ l, x.1 - t0 < calibration_end_time) →
      (process_list g l).state = .calibrating ∧
      (process_list g l).start_time = some t0 ∧
      (process_list g l).baseline_value = g.baseline_value ∧
      (process_list g l).calibration_values =
        g.calibration_values ++ (l.filter (inCalibWindow t0)).map Prod.snd := by
  induction l with
  | nil => intro g hs hst _; simp [process_list, hs, hst]
  | cons a l ih =>
      intro g hs hst hl
      have hlt : a.1 - t0 < calibration_end_time := hl a (List.mem_cons_self a l)
      have hstep := pdp_calibrating_stay g a.1 a.2 t0 hs hst hlt
      have hrec := ih (process_data_point g a.1 a.2)
        (by rw [hstep]; exact hs) (by rw [hstep])
        (fun x hx => hl x (List.mem_cons_of_mem a hx))
      have hfold : process_list g (a :: l) = process_list (process_data_point g a.1 a.2) l := by
        simp [process_list]
      rw [hfold]
      refine ⟨hrec.1, hrec.2.1, ?_, ?_⟩
      · rw [hrec.2.2.1, hstep]
      · rw [hrec.2.2.2, hstep]
        simp only [List.filter_cons]
        by_cases h3 : calibration_start_time ≤ a.1 - t0
        · have : inCalibWindow t0 a = true := by
            simp [inCalibWindow, h3, le_of_lt hlt]
          simp [this, h3, List.append_assoc]
        · have : inCalibWindow t0 a = false := by
            simp [inCalibWindow, h3]
          simp [this, h3]

/-- C9: starting the machine and feeding a first sample at time `t0`, further
calibration samples (elapsed < `calibration_end_time`), and a final sample
with elapsed ≥ `calibration_end_time`, the machine transitions to the
challenge state, and the baseline is the arithmetic mean of exactly the
sample values whose elapsed time lay in
`[calibration_start_time, calibration_end_time]`; if no sample fell in that
window the baseline is the documented fallback 500, and the transition still
happens. -/
theorem calibration_baseline_mean (m : GameMode) (t0 v0 tl vl : ℚ)
    (rest : List (ℚ × ℚ))
    (hrest : ∀ x ∈ rest, x.1 - t0 < calibration_end_time)
    (hlast : calibration_end_time ≤ tl - t0) :
    (process_list (start_game (initFor m)) ((t0, v0) :: rest ++ [(tl, vl)])).state =
      .challenge ∧
    (process_list (start_game (initFor m)) ((t0, v0) :: rest ++ [(tl, vl)])).baseline_value =
      some
        (if (((t0, v0) :: rest ++ [(tl, vl)]).filter (inCalibWindow t0)).map Prod.snd = []
         then 500
         else ((((t0, v0) :: rest ++ [(tl, vl)]).filter (inCalibWindow t0)).map Prod.snd).sum /
           (((((t0, v0) :: rest ++ [(tl, vl)]).filter (inCalibWindow t0)).map Prod.snd).length : ℚ)) := by
  have hs0 : (start_game (initFor m)).state = .calibrating := by cases m <;> rfl
  have hst0 : (start_game (initFor m)).start_time = none := by cases m <;> rfl
  have hfold1 : process_list (start_game (initFor m)) ((t0, v0) :: rest ++ [(tl, vl)]) =
      process_list (process_data_point (start_game (initFor m)) t0 v0) (rest ++ [(tl, vl)]) := by
    simp [process_list]
  have hfirst := pdp_first_sample (start_game (initFor m)) t0 v0 hs0 hst0
  set g1 := process_data_point (start_game (initFor m)) t0 v0 with hg1
  have hs1 : g1.state = .calibrating := by rw [hfirst]; exact hs0
  have hst1 : g1.start_time = some t0 := by rw [hfirst]
  have hcv1 : g1.calibration_values = [] := by
    rw [hfirst]; show (start_game (initFor m)).calibration_values = []; cases m <;> rfl
  have hfold2 : process_list g1 (rest ++ [(tl, vl)]) =
      process_data_point (process_list g1 rest) tl vl := by
    simp [process_list]
  have hmid := process_list_calibrating t0 rest g1 hs1 hst1 hrest
  set g2 := process_list g1 rest with hg2
  have hfin := pdp_calibrating_finish g2 tl vl t0 hmid.1 hmid.2.1 hlast
  have hhead : inCalibWindow t0 (t0, v0) = false := by
    simp only [inCalibWindow]
    norm_num [calibration_start_time, calibration_end_time]
  have hcv2 : g2.calibration_values = (rest.filter (inCalibWindow t0)).map Prod.snd := by
    rw [hmid.2.2.2, hcv1, List.nil_append]
  have hfilter :
      (((t0, v0) :: rest ++ [(tl, vl)]).filter (inCalibWindow t0)).map Prod.snd =
        (rest.filter (inCalibWindow t0)).map Prod.snd ++
          (if calibration_start_time ≤ tl - t0 ∧ tl - t0 ≤ calibration_end_time
           then [vl] else []) := by
    have hl1 : ((t0, v0) :: rest ++ [(tl, vl)] : List (ℚ × ℚ)) =
        ((t0, v0) :: rest) ++ [(tl, vl)] := rfl
    rw [hl1, List.filter_append, List.map_append]
    congr 1
    · simp [List.filter_cons, hhead]
    · by_cases hin : calibration_start_time ≤ tl - t0 ∧ tl - t0 ≤ calibration_end_time
      · have hw : inCalibWindow t0 (tl, vl) = true := by
          simp [inCalibWindow, hin.1, hin.2]
        simp [List.filter_cons, hw, hin]
      · have hw : inCalibWindow t0 (tl, vl) = false := by
          simp only [inCalibWindow, decide_eq_false_iff_not]
          exact hin
        rw [if_neg hin]
        simp [List.filter_cons, hw]
  rw [hfold1, hfold2, hfin, hfilter, hcv2]
  exact ⟨rfl, rfl⟩

set_option maxRecDepth 10000 in
theorem calibration_baseline_mean_witness :
    (∀ x ∈ ([((4 : ℚ), (600 : ℚ))] : List (ℚ × ℚ)), x.1 - 0 < calibration_end_time) ∧
    calibration_end_time ≤ (12 : ℚ) - 0 ∧
    (process_list (start_game (initFor .fire)) ((0, 444) :: [((4 : ℚ), (600 : ℚ))] ++ [(12, 7)])).state =
      .challenge ∧
    (process_list (start_game (initFor .fire)) ((0, 444) :: [((4 : ℚ), (600 : ℚ))] ++ [(12, 7)])).baseline_value =
      some 600 := by
  have h1 : ∀ x ∈ ([((4 : ℚ), (600 : ℚ))] : List (ℚ × ℚ)), x.1 - 0 < calibration_end_time := by
    intro x hx
    simp only [List.mem_singleton] at hx
    subst hx
    norm_num [calibration_end_time]
  have h2 : calibration_end_time ≤ (12 : ℚ) - 0 := by norm_num [calibration_end_time]
  have hmain := calibration_baseline_mean .fire 0 444 12 7 [((4 : ℚ), (600 : ℚ))] h1 h2
  refine ⟨h1, h2, hmain.1, ?_⟩
  rw [hmain.2]
  with_unfolding_all decide

end PPGGame

namespace PPGGame

theorem streakStep_true (s : ℚ × ℚ) : streakStep s true = (s.1 + 1/10, s.2) := rfl

theorem streakStep_false (s : ℚ × ℚ) : streakStep s false = (0, max s.2 s.1) := rfl

theorem streakRun_append_single (bs : List Bool) (b : Bool) :
    streakRun (bs ++ [b]) = streakStep (streakRun bs) b := by
  simp [streakRun, List.foldl_append]

/-- Proof helper: the best streak value reachable from a pending streak `c`
over the remaining tick list. -/
def streakBest (c : ℚ) : List Bool → ℚ
  | [] => c
  | true :: bs => streakBest (c + 1/10) bs
  | false :: bs => max c (streakBest 0 bs)

theorem streakFlush_foldl (bs : List Bool) :
    ∀ c mx : ℚ, streakFlush (bs.foldl streakStep (c, mx)) = max mx (streakBest c bs) := by
  induction bs with
  | nil => intro c mx; simp [streakFlush, streakBest]
  | cons b bs ih =>
      intro c mx
      cases b
      · rw [List.foldl_cons, show streakStep (c, mx) false = (0, max mx c) from rfl,
          ih 0 (max mx c), show streakBest c (false :: bs) = max c (streakBest 0 bs) from rfl,
          max_assoc]
      · rw [List.foldl_cons, show streakStep (c, mx) true = (c + 1/10, mx) from rfl,
          ih (c + 1/10) mx]
        rfl

theorem maxRunLen_cons (b : Bool) (bs : List Bool) :
    maxRunLen (b :: bs) = max (firstRun (b :: bs)) (maxRunLen bs) := by
  simp [maxRunLen, List.tails_cons]

theorem firstRun_le_maxRunLen (bs : List Bool) : firstRun bs ≤ maxRunLen bs := by
  cases bs with
  | nil => exact le_rfl
  | cons b bs => rw [maxRunLen_cons]; exact le_max_left _ _

theorem firstRun_true (bs : List Bool) : firstRun (true :: bs) = firstRun bs + 1 := by
  simp [firstRun, List.takeWhile_cons]

theorem firstRun_false (bs : List Bool) : firstRun (false :: bs) = 0 := by
  simp [firstRun, List.takeWhile_cons]

theorem max_absorb_mid (x y z : ℚ) (h : y ≤ x) : max x (max y z) = max x z := by
  rw [max_comm y z, ← max_assoc, max_eq_left (h.trans (le_max_left x z))]

theorem firstRun_div_le (bs : List Bool) :
    (firstRun bs : ℚ) / 10 ≤ (maxRunLen bs : ℚ) / 10 := by
  have h := firstRun_le_maxRunLen bs
  have h2 : (firstRun bs : ℚ) ≤ (maxRunLen bs : ℚ) := by exact_mod_cast h
  apply div_le_div_of_nonneg_right h2 (by norm_num)

theorem streakBest_eq (bs : List Bool) :
    ∀ c : ℚ, 0 ≤ c →
      streakBest c bs = max (c + (firstRun bs : ℚ) / 10) ((maxRunLen bs : ℚ) / 10) := by
  induction bs with
  | nil =>
      intro c hc
      simp [streakBest, firstRun, maxRunLen]
      exact hc
  | cons b bs ih =>
      intro c hc
      cases b
      · rw [show streakBest c (false :: bs) = max c (streakBest 0 bs) from rfl,
          ih 0 le_rfl, maxRunLen_cons, firstRun_false]
        rw [zero_add, max_eq_right (firstRun_div_le bs),
          show (0 : ℕ) ⊔ maxRunLen bs = maxRunLen bs from max_eq_right (Nat.zero_le _)]
        norm_num
      · rw [show streakBest c (true :: bs) = streakBest (c + 1/10) bs from rfl,
          ih (c + 1/10) (by linarith), maxRunLen_cons, firstRun_true]
        push_cast [Nat.cast_max]
        rw [show c + 1 / 10 + (firstRun bs : ℚ) / 10 = c + ((firstRun bs : ℚ) + 1) / 10 by
          ring]
        rw [← max_div_div_right (by norm_num : (0:ℚ) ≤ 10)]
        exact (max_absorb_mid _ _ _ (by linarith)).symm

theorem streakFlush_streakRun (bs : List Bool) :
    streakFlush (streakRun bs) = (maxRunLen bs : ℚ) / 10 := by
  rw [streakRun, streakFlush_foldl bs 0 0, streakBest_eq bs 0 le_rfl, zero_add,
    max_eq_right (firstRun_div_le bs), max_eq_right (by positivity)]

theorem streak_snd_le_foldl (bs : List Bool) :
    ∀ s : ℚ × ℚ, s.2 ≤ (bs.foldl streakStep s).2 := by
  induction bs with
  | nil => intro s; exact le_rfl
  | cons b bs ih =>
      intro s
      refine le_trans ?_ (ih (streakStep s b))
      cases b
      · exact le_max_left _ _
      · exact le_rfl

theorem streak_fst_nonneg (bs : List Bool) :
    ∀ s : ℚ × ℚ, 0 ≤ s.1 → 0 ≤ (bs.foldl streakStep s).1 := by
  induction bs with
  | nil => intro s hs; exact hs
  | cons b bs ih =>
      intro s hs
      refine ih (streakStep s b) ?_
      cases b
      · exact le_rfl
      · show (0 : ℚ) ≤ s.1 + 1/10
        linarith

theorem foldl_replicate_true (n : ℕ) :
    ∀ s : ℚ × ℚ, (List.replicate n true).foldl streakStep s = (s.1 + (n : ℚ)/10, s.2) := by
  induction n with
  | zero => intro s; simp
  | succ k ih =>
      intro s
      rw [List.replicate_succ, List.foldl_cons, streakStep_true, ih]
      rw [Prod.ext_iff]
      constructor
      · show s.1 + 1/10 + (k : ℚ)/10 = s.1 + ((k + 1 : ℕ) : ℚ)/10
        push_cast
        ring
      · rfl

theorem completed_run_le (l : List Bool) (n : ℕ) (r : List Bool) :
    ∀ s : ℚ × ℚ, 0 ≤ s.1 →
      (n : ℚ)/10 ≤ ((l ++ List.replicate n true ++ false :: r).foldl streakStep s).2 := by
  intro s hs
  rw [List.foldl_append, List.foldl_append, foldl_replicate_true n (l.foldl streakStep s),
    List.foldl_cons]
  have h1 : 0 ≤ (l.foldl streakStep s).1 := streak_fst_nonneg l s hs
  refine le_trans ?_ (streak_snd_le_foldl r _)
  show (n : ℚ)/10 ≤ max (l.foldl streakStep s).2 ((l.foldl streakStep s).1 + (n : ℚ)/10)
  exact le_trans (by linarith) (le_max_right _ _)

end PPGGame

namespace PPGGame

theorem initFor_game_mode (m : GameMode) : (initFor m).game_mode = m := by
  cases m <;> rfl

theorem initFor_max_duration (m : GameMode) :
    (initFor m).max_duration = ((durTicks m : ℕ) : ℚ) / 10 := by
  cases m <;> norm_num [initFor, set_game_mode, GameManager.init, fire_max_duration,
    wave_max_duration, durTicks]

theorem pdp_challenge_stay (g : GameManager) (t v s : ℚ) (hs : g.state = .challenge)
    (hst : g.start_time = some s) (hlt : t - s < g.max_duration) :
    (process_data_point g t v).state = .challenge ∧
    (process_data_point g t v).start_time = some s ∧
    (process_data_point g t v).game_mode = g.game_mode ∧
    (process_data_point g t v).max_duration = g.max_duration ∧
    (process_data_point g t v).baseline_value = g.baseline_value ∧
    (process_data_point g t v).time_in_target + (process_data_point g t v).time_below_target =
      g.time_in_target + g.time_below_target + 1/10 ∧
    ((process_data_point g t v).current_consecutive_target,
        (process_data_point g t v).max_consecutive_target) =
      streakStep (g.current_consecutive_target, g.max_consecutive_target)
        (decide (calculate_target g.game_mode (g.baseline_value.getD 0) (t - s) ≤ v)) := by
  have hno : (g.max_duration ≤ t - s) = False := eq_false (not_le.mpr hlt)
  by_cases hcv : calculate_target g.game_mode (g.baseline_value.getD 0) (t - s) ≤ v
  · simp only [process_data_point, hst, Option.getD_some, hs, eq_true hcv, decide_True,
      eq_self_iff_true, if_true, hno, if_false, streakStep]
    exact ⟨by trivial, by trivial, by trivial, by trivial, by trivial, by ring, by trivial⟩
  · simp only [process_data_point, hst, Option.getD_some, hs, eq_false hcv, decide_False,
      Bool.false_eq_true, if_false, hno, streakStep]
    exact ⟨by trivial, by trivial, by trivial, by trivial, by trivial, by ring, by trivial⟩

theorem pdp_challenge_finish (g : GameManager) (t v s : ℚ) (hs : g.state = .challenge)
    (hst : g.start_time = some s) (hge : g.max_duration ≤ t - s) :
    (process_data_point g t v).state = .complete ∧
    (process_data_point g t v).time_in_target + (process_data_point g t v).time_below_target =
      g.time_in_target + g.time_below_target + 1/10 ∧
    (process_data_point g t v).max_consecutive_target =
      streakFlush (streakStep (g.current_consecutive_target, g.max_consecutive_target)
        (decide (calculate_target g.game_mode (g.baseline_value.getD 0) (t - s) ≤ v))) := by
  by_cases hcv : calculate_target g.game_mode (g.baseline_value.getD 0) (t - s) ≤ v
  · simp only [process_data_point, hst, Option.getD_some, hs, eq_true hcv, decide_True,
      eq_self_iff_true, if_true, eq_true hge, streakStep, streakFlush]
    exact ⟨by trivial, by ring, by trivial⟩
  · simp only [process_data_point, hst, Option.getD_some, hs, eq_false hcv, decide_False,
      Bool.false_eq_true, if_false, eq_true hge, if_true, streakStep, streakFlush]
    exact ⟨by trivial, by ring, by trivial⟩

theorem bitsList_succ (m : GameMode) (t0 : ℚ) (v : ℕ → ℚ) (j : ℕ) :
    bitsList m t0 v (j + 1) = bitsList m t0 v j ++ [passBit m t0 v j] := by
  simp [bitsList, List.range_succ]

theorem runTicks_calibrating (m : GameMode) (t0 : ℚ) (v : ℕ → ℚ) :
    ∀ k : ℕ, k ≤ 99 →
      (runTicks m t0 v (k + 1)).state = .calibrating ∧
      (runTicks m t0 v (k + 1)).start_time = some t0 ∧
      (runTicks m t0 v (k + 1)).game_mode = m ∧
      (runTicks m t0 v (k + 1)).max_duration = (initFor m).max_duration ∧
      (runTicks m t0 v (k + 1)).time_in_target = 0 ∧
      (runTicks m t0 v (k + 1)).time_below_target = 0 ∧
      (runTicks m t0 v (k + 1)).current_consecutive_target = 0 ∧
      (runTicks m t0 v (k + 1)).max_consecutive_target = 0 := by
  intro k
  induction k with
  | zero =>
      intro _
      have hfirst := pdp_first_sample (start_game (initFor m)) (t0 + ((0 : ℕ) : ℚ) / 10) (v 0)
        (by cases m <;> rfl) (by cases m <;> rfl)
      have hrw : runTicks m t0 v 1 =
          process_data_point (start_game (initFor m)) (t0 + ((0 : ℕ) : ℚ) / 10) (v 0) := rfl
      rw [hrw, hfirst]
      refine ⟨by cases m <;> rfl, by norm_num, by cases m <;> rfl, by cases m <;> rfl,
        by cases m <;> rfl, by cases m <;> rfl, by cases m <;> rfl, by cases m <;> rfl⟩
  | succ k ih =>
      intro hk
      have hik := ih (by omega)
      have helapsed : (t0 + ((k + 1 : ℕ) : ℚ) / 10) - t0 = ((k + 1 : ℕ) : ℚ) / 10 := by
        ring
      have hlt : (t0 + ((k + 1 : ℕ) : ℚ) / 10) - t0 < calibration_end_time := by
        rw [helapsed, calibration_end_time]
        rw [div_lt_iff (by norm_num : (0:ℚ) < 10)]
        have : ((k + 1 : ℕ) : ℚ) ≤ 99 := by exact_mod_cast (by omega : k + 1 ≤ 99)
        linarith
      have hstep := pdp_calibrating_stay (runTicks m t0 v (k + 1))
        (t0 + ((k + 1 : ℕ) : ℚ) / 10) (v (k + 1)) t0 hik.1 hik.2.1 hlt
      have hrw : runTicks m t0 v (k + 1 + 1) =
          process_data_point (runTicks m t0 v (k + 1)) (t0 + ((k + 1 : ℕ) : ℚ) / 10)
            (v (k + 1)) := rfl
      rw [hrw, hstep]
      exact ⟨hik.1, rfl, hik.2.2.1, hik.2.2.2.1, hik.2.2.2.2.1, hik.2.2.2.2.2.1,
        hik.2.2.2.2.2.2.1, hik.2.2.2.2.2.2.2⟩

set_option maxRecDepth 4000 in
theorem runTicks_transition (m : GameMode) (t0 : ℚ) (v : ℕ → ℚ) :
    (runTicks m t0 v 101).state = .challenge ∧
    (runTicks m t0 v 101).start_time = some t0 ∧
    (runTicks m t0 v 101).game_mode = m ∧
    (runTicks m t0 v 101).max_duration = (initFor m).max_duration ∧
    (runTicks m t0 v 101).time_in_target = 0 ∧
    (runTicks m t0 v 101).time_below_target = 0 ∧
    (runTicks m t0 v 101).current_consecutive_target = 0 ∧
    (runTicks m t0 v 101).max_consecutive_target = 0 := by
  have hik := runTicks_calibrating m t0 v 99 (by omega)
  have hge : (t0 + ((100 : ℕ) : ℚ) / 10) - t0 ≥ calibration_end_time := by
    rw [calibration_end_time]
    norm_num
  have hstep := pdp_calibrating_finish (runTicks m t0 v 100)
    (t0 + ((100 : ℕ) : ℚ) / 10) (v 100) t0 hik.1 hik.2.1 hge
  have hrw : runTicks m t0 v 101 =
      process_data_point (runTicks m t0 v 100) (t0 + ((100 : ℕ) : ℚ) / 10) (v 100) := rfl
  rw [hrw, hstep]
  exact ⟨rfl, rfl, hik.2.2.1, hik.2.2.2.1, hik.2.2.2.2.1, hik.2.2.2.2.2.1,
    hik.2.2.2.2.2.2.1, hik.2.2.2.2.2.2.2⟩

end PPGGame

namespace PPGGame

theorem runTicks_challenge_inv (m : GameMode) (t0 : ℚ) (v : ℕ → ℚ) :
    ∀ j : ℕ, 101 + j ≤ durTicks m →
      (runTicks m t0 v (101 + j)).state = .challenge ∧
      (runTicks m t0 v (101 + j)).start_time = some t0 ∧
      (runTicks m t0 v (101 + j)).game_mode = m ∧
      (runTicks m t0 v (101 + j)).max_duration = (initFor m).max_duration ∧
      (runTicks m t0 v (101 + j)).baseline_value = (runTicks m t0 v 101).baseline_value ∧
      (runTicks m t0 v (101 + j)).time_in_target +
        (runTicks m t0 v (101 + j)).time_below_target = (j : ℚ) / 10 ∧
      ((runTicks m t0 v (101 + j)).current_consecutive_target,
        (runTicks m t0 v (101 + j)).max_consecutive_target) =
      streakRun (bitsList m t0 v j) := by
  intro j
  induction j with
  | zero =>
      intro _
      have h := runTicks_transition m t0 v
      refine ⟨h.1, h.2.1, h.2.2.1, h.2.2.2.1, rfl, ?_, ?_⟩
      · rw [h.2.2.2.2.1, h.2.2.2.2.2.1]
        norm_num
      · rw [h.2.2.2.2.2.2.1, h.2.2.2.2.2.2.2]
        rfl
  | succ j ih =>
      intro hj
      have hik := ih (by omega)
      have h1 : (t0 + ((101 + j : ℕ) : ℚ) / 10) - t0 = ((101 + j : ℕ) : ℚ) / 10 := by
        ring
      have hlt : (t0 + ((101 + j : ℕ) : ℚ) / 10) - t0 <
          (runTicks m t0 v (101 + j)).max_duration := by
        rw [hik.2.2.2.1, initFor_max_duration, h1]
        have h2 : ((101 + j : ℕ) : ℚ) < ((durTicks m : ℕ) : ℚ) := by
          exact_mod_cast (by omega : 101 + j < durTicks m)
        exact div_lt_div_of_pos_right h2 (by norm_num)
      have hstep := pdp_challenge_stay (runTicks m t0 v (101 + j))
        (t0 + ((101 + j : ℕ) : ℚ) / 10) (v (101 + j)) t0 hik.1 hik.2.1 hlt
      have hbit : decide (calculate_target (runTicks m t0 v (101 + j)).game_mode
          ((runTicks m t0 v (101 + j)).baseline_value.getD 0)
          ((t0 + ((101 + j : ℕ) : ℚ) / 10) - t0) ≤ v (101 + j)) = passBit m t0 v j := by
        unfold passBit runBaseline
        apply decide_eq_decide.mpr
        rw [h1, hik.2.2.1, hik.2.2.2.2.1]
      have hrw : runTicks m t0 v (101 + (j + 1)) =
          process_data_point (runTicks m t0 v (101 + j))
            (t0 + ((101 + j : ℕ) : ℚ) / 10) (v (101 + j)) := rfl
      rw [hrw]
      refine ⟨hstep.1, hstep.2.1, ?_, ?_, ?_, ?_, ?_⟩
      · rw [hstep.2.2.1]
        exact hik.2.2.1
      · rw [hstep.2.2.2.1]
        exact hik.2.2.2.1
      · rw [hstep.2.2.2.2.1]
        exact hik.2.2.2.2.1
      · rw [hstep.2.2.2.2.2.1, hik.2.2.2.2.2.1]
        push_cast
        ring
      · rw [hstep.2.2.2.2.2.2, hbit, hik.2.2.2.2.2.2, bitsList_succ,
          streakRun_append_single]

theorem runTicks_complete_general (m : GameMode) (t0 : ℚ) (v : ℕ → ℚ) (j : ℕ)
    (hj : 101 + j = durTicks m) :
    (runTicks m t0 v (durTicks m + 1)).state = .complete ∧
    (runTicks m t0 v (durTicks m + 1)).time_in_target +
      (runTicks m t0 v (durTicks m + 1)).time_below_target = ((j + 1 : ℕ) : ℚ) / 10 ∧
    (runTicks m t0 v (durTicks m + 1)).max_consecutive_target =
      streakFlush (streakRun (bitsList m t0 v (j + 1))) := by
  have hik := runTicks_challenge_inv m t0 v j (le_of_eq hj)
  have h1 : (t0 + ((101 + j : ℕ) : ℚ) / 10) - t0 = ((101 + j : ℕ) : ℚ) / 10 := by
    ring
  have hge : (t0 + ((101 + j : ℕ) : ℚ) / 10) - t0 ≥
      (runTicks m t0 v (101 + j)).max_duration := by
    rw [hik.2.2.2.1, initFor_max_duration, h1, ← hj]
  have hstep := pdp_challenge_finish (runTicks m t0 v (101 + j))
    (t0 + ((101 + j : ℕ) : ℚ) / 10) (v (101 + j)) t0 hik.1 hik.2.1 hge
  have hbit : decide (calculate_target (runTicks m t0 v (101 + j)).game_mode
      ((runTicks m t0 v (101 + j)).baseline_value.getD 0)
      ((t0 + ((101 + j : ℕ) : ℚ) / 10) - t0) ≤ v (101 + j)) = passBit m t0 v j := by
    unfold passBit runBaseline
    apply decide_eq_decide.mpr
    rw [h1, hik.2.2.1, hik.2.2.2.2.1]
  have hrw : runTicks m t0 v (durTicks m + 1) =
      process_data_point (runTicks m t0 v (101 + j))
        (t0 + ((101 + j : ℕ) : ℚ) / 10) (v (101 + j)) := by
    rw [← hj]
    rfl
  rw [hrw]
  refine ⟨hstep.1, ?_, ?_⟩
  · rw [hstep.2.1, hik.2.2.2.2.2.1]
    push_cast
    ring
  · rw [hstep.2.2, hbit, hik.2.2.2.2.2.2, bitsList_succ, streakRun_append_single]

/-- C2: for every mode, start offset and value sequence, feeding the started
machine one sample per 0.1 s until elapsed time reaches `calibration_end_time`
and on until elapsed time reaches `max_duration` ends in the `complete` state
with `time_in_target + time_below_target` equal to
`max_duration - challenge_start_time` to within one tick (0.1 s). -/
theorem run_to_completion (m : GameMode) (t0 : ℚ) (v : ℕ → ℚ) :
    (runTicks m t0 v (durTicks m + 1)).state = .complete ∧
    |(runTicks m t0 v (durTicks m + 1)).time_in_target +
        (runTicks m t0 v (durTicks m + 1)).time_below_target -
        ((initFor m).max_duration - challenge_start_time)| ≤ 1/10 := by
  cases m with
  | fire =>
      have h := runTicks_complete_general .fire t0 v 299 rfl
      refine ⟨h.1, ?_⟩
      rw [h.2.1]
      norm_num [initFor, set_game_mode, GameManager.init, fire_max_duration,
        challenge_start_time]
  | wave =>
      have h := runTicks_complete_general .wave t0 v 599 rfl
      refine ⟨h.1, ?_⟩
      rw [h.2.1]
      norm_num [initFor, set_game_mode, GameManager.init, wave_max_duration,
        challenge_start_time]

/-- C5: along a nominal-rate run, after any number `j` of challenge ticks
whose pass/fail bits contain a completed run of `n` consecutive in-target
ticks (a block of `n` `true`s followed by a `false`), the machine's
`max_consecutive_target` is at least `n` tick-increments (`n/10` seconds);
and when the run is driven to the `complete` state, `max_consecutive_target`
equals the true maximum run length of consecutive in-target ticks of the
whole challenge input sequence, in seconds. -/
theorem max_consecutive_streak (m : GameMode) (t0 : ℚ) (v : ℕ → ℚ) (j n : ℕ)
    (l r : List Bool) (hj : 101 + j ≤ durTicks m)
    (hdec : bitsList m t0 v j = l ++ List.replicate n true ++ false :: r) :
    (n : ℚ) / 10 ≤ (runTicks m t0 v (101 + j)).max_consecutive_target ∧
    (runTicks m t0 v (durTicks m + 1)).max_consecutive_target =
      (maxRunLen (bitsList m t0 v (durTicks m - 100)) : ℚ) / 10 := by
  constructor
  · have hik := runTicks_challenge_inv m t0 v j hj
    have hmax : (runTicks m t0 v (101 + j)).max_consecutive_target =
        (streakRun (bitsList m t0 v j)).2 := congrArg Prod.snd hik.2.2.2.2.2.2
    rw [hmax, hdec]
    exact completed_run_le l n r (0, 0) le_rfl
  · cases m with
    | fire =>
        have h := runTicks_complete_general .fire t0 v 299 rfl
        rw [h.2.2, streakFlush_streakRun]
        rfl
    | wave =>
        have h := runTicks_complete_general .wave t0 v 599 rfl
        rw [h.2.2, streakFlush_streakRun]
        rfl

end PPGGame

namespace PPGGame

set_option maxRecDepth 100000 in
theorem max_consecutive_streak_witness :
    (101 + 1 ≤ durTicks .fire) ∧
    (bitsList .fire 0 (fun _ => (500 : ℚ)) 1 =
      [] ++ List.replicate 0 true ++ false :: []) ∧
    (((0 : ℕ) : ℚ) / 10 ≤
        (runTicks .fire 0 (fun _ => (500 : ℚ)) (101 + 1)).max_consecutive_target ∧
      (runTicks .fire 0 (fun _ => (500 : ℚ)) (durTicks .fire + 1)).max_consecutive_target =
        (maxRunLen (bitsList .fire 0 (fun _ => (500 : ℚ)) (durTicks .fire - 100)) : ℚ) / 10) :=
  ⟨by decide, by with_unfolding_all decide,
   max_consecutive_streak .fire 0 (fun _ => 500) 1 0 [] [] (by decide)
     (by with_unfolding_all decide)⟩

end PPGGame
